import Mathlib

/-!
Custom-endpoint config digester and node listing commands: a shallow embedding of

* `core/services/relay/customendpoint/config_digester.go`
  (`offchainConfigDigester`, `ConfigDigest`, `configDigest`, `ConfigDigestPrefix`),
* `core/cmd/nodes_commands.go` (`nodeCommand`, `NodeClient`, `nodeClient`),
* the paginated listing exercised by `core/web/terra_chains_controller_test.go`.

Bytes are natural numbers, Go strings are byte sequences, a Go `[32]byte` is a list
that the operations keep at length 32.
-/

namespace Chainlink

/-! ## Go values -/

/-- A Go string: an immutable sequence of bytes. -/
abbrev GoString := List Nat

/-- The UTF-8 encoding of the code point `c`. -/
def utf8 (c : Nat) : List Nat :=
  if c < 0x80 then [c]
  else if c < 0x800 then [0xC0 + c / 64, 0x80 + c % 64]
  else if c < 0x10000 then [0xE0 + c / 4096, 0x80 + c / 64 % 64, 0x80 + c % 64]
  else [0xF0 + c / 262144, 0x80 + c / 4096 % 64, 0x80 + c / 64 % 64, 0x80 + c % 64]

/-- The Go string written as the literal `s` (its UTF-8 bytes). -/
def str (s : String) : GoString :=
  s.toList.flatMap (fun c => utf8 c.toNat)

/-- The conversion `[]byte(s)`. -/
def bytesOf (s : GoString) : List Nat := s

/-- The builtin `copy(dst, src)`: copies `min(len(dst), len(src))` elements and returns
the updated destination with the number of elements copied. -/
def copy (dst src : List Nat) : List Nat × Nat :=
  let n := min dst.length src.length
  (src.take n ++ dst.drop n, n)

/-- The conversion `uint16(v)`. -/
def uint16 (v : Nat) : Nat := v % 2 ^ 16

/-- The conversion `byte(v)`. -/
def byte (v : Nat) : Nat := v % 2 ^ 8

/-- `binary.BigEndian.PutUint16(b, v)`: `b[0] = byte(v >> 8)`, `b[1] = byte(v)`. -/
def PutUint16 (b : List Nat) (v : Nat) : List Nat :=
  (b.set 0 (byte (v >>> 8))).set 1 (byte v)

/-! ## The hash primitive

`crypto/sha256` is consumed, not reimplemented: the digester is embedded over any
streaming hash whose state is the input written so far. -/

/-- The hash primitive behind `sha256.New()`. -/
structure HashPrimitive where
  /-- The error `Write(p)` returns, if any, after `seen` has been written. -/
  writeErr : (seen p : List Nat) → Option String
  /-- The hash value of everything written, as `Sum` appends it. -/
  sumOf : (seen : List Nat) → List Nat

/-- A running hash (`hash.Hash`): the bytes written so far. -/
structure Hash where
  written : List Nat
deriving DecidableEq, Repr

/-- `sha256.New()`. -/
def Hash.New : Hash := ⟨[]⟩

/-- `buf.Write(p)`: adds `p` to the running hash, or reports the primitive's error. -/
def Hash.Write (P : HashPrimitive) (buf : Hash) (p : List Nat) : Hash × Option String :=
  match P.writeErr buf.written p with
  | some err => (buf, some err)
  | none => (⟨buf.written ++ p⟩, none)

/-- `buf.Sum(b)`: appends the current hash to `b`. -/
def Hash.Sum (P : HashPrimitive) (buf : Hash) (b : List Nat) : List Nat :=
  b ++ P.sumOf buf.written

/-! ## config_digester.go -/

/-- Errors `configDigest` can return. -/
inductive DigestError where
  /-- An error handed back by `buf.Write`. -/
  | write (err : String)
  /-- `fmt.Errorf("incorrect hash size %d, expected %d", n, len(digest))`. -/
  | incorrectHashSize (n expected : Nat)
deriving DecidableEq, Repr

/-- `const ConfigDigestPrefixCustomEndpoint types.ConfigDigestPrefix = 4`. -/
def ConfigDigestPrefixCustomEndpoint : Nat := 4

/-- `type offchainConfigDigester struct`. -/
structure offchainConfigDigester where
  EndpointName : GoString
  EndpointTarget : GoString
  PayloadType : GoString
deriving DecidableEq, Repr

/-- Modelled from the spec: `types.ContractConfig` is declared in libocr, outside these
sources; the spec describes an opaque structured configuration (oracle set, signer keys,
thresholds), given here under the field names of the libocr declaration. -/
structure ContractConfig where
  ConfigCount : Nat
  Signers : List (List Nat)
  Transmitters : List GoString
  F : Nat
  OnchainConfig : List Nat
  OffchainConfigVersion : Nat
  OffchainConfig : List Nat
deriving DecidableEq, Repr

/-- `types.ConfigDigest{}`: the zero value of `[32]byte`. -/
def ConfigDigest.zero : List Nat := List.replicate 32 0

/-- `func (offchainConfigDigester) ConfigDigestPrefix()`. -/
def offchainConfigDigester.ConfigDigestPrefix (_d : offchainConfigDigester) : Nat :=
  ConfigDigestPrefixCustomEndpoint

/-- `func (d offchainConfigDigester) configDigest()`, returning `(digest, err)`. -/
def offchainConfigDigester.configDigest (P : HashPrimitive) (d : offchainConfigDigester) :
    List Nat × Option DigestError :=
  let digest := ConfigDigest.zero
  let buf := Hash.New
  match Hash.Write P buf (bytesOf d.EndpointName) with
  | (_, some err) => (digest, some (.write err))
  | (buf, none) =>
  match Hash.Write P buf (bytesOf d.EndpointTarget) with
  | (_, some err) => (digest, some (.write err))
  | (buf, none) =>
  match Hash.Write P buf (bytesOf d.PayloadType) with
  | (_, some err) => (digest, some (.write err))
  | (buf, none) =>
  let rawHash := Hash.Sum P buf []
  let (digest, n) := copy digest rawHash
  if n ≠ digest.length then
    (digest, some (.incorrectHashSize n digest.length))
  else
    let digest := PutUint16 (digest.take 2) (uint16 d.ConfigDigestPrefix) ++ digest.drop 2
    (digest, none)

/-- `func (d offchainConfigDigester) ConfigDigest(cfg types.ContractConfig)`. -/
def offchainConfigDigester.ConfigDigest (P : HashPrimitive) (d : offchainConfigDigester)
    (_cfg : ContractConfig) : List Nat × Option DigestError :=
  d.configDigest P

/-- The body of `configDigest` with the value written by `PutUint16` taken as the
parameter `pfx` in place of `d.ConfigDigestPrefix()`. -/
def offchainConfigDigester.configDigestWithPrefix (P : HashPrimitive) (pfx : Nat)
    (d : offchainConfigDigester) : List Nat × Option DigestError :=
  let digest := ConfigDigest.zero
  let buf := Hash.New
  match Hash.Write P buf (bytesOf d.EndpointName) with
  | (_, some err) => (digest, some (.write err))
  | (buf, none) =>
  match Hash.Write P buf (bytesOf d.EndpointTarget) with
  | (_, some err) => (digest, some (.write err))
  | (buf, none) =>
  match Hash.Write P buf (bytesOf d.PayloadType) with
  | (_, some err) => (digest, some (.write err))
  | (buf, none) =>
  let rawHash := Hash.Sum P buf []
  let (digest, n) := copy digest rawHash
  if n ≠ digest.length then
    (digest, some (.incorrectHashSize n digest.length))
  else
    let digest := PutUint16 (digest.take 2) (uint16 pfx) ++ digest.drop 2
    (digest, none)

/-- A primitive shaped like SHA-256: writes never fail and the output is 32 bytes. -/
def HashPrimitive.IsSha256Like (P : HashPrimitive) : Prop :=
  (∀ seen p, P.writeErr seen p = none) ∧ (∀ seen, (P.sumOf seen).length = 32)

/-- A stand-in primitive for concrete evaluation: no write error, and 32 output bytes
derived from the length and byte sum of the input. -/
def sampleHash : HashPrimitive where
  writeErr := fun _ _ => none
  sumOf := fun seen => (List.range 32).map (fun i => (seen.length * 31 + seen.sum + 7 * i) % 256)

/-- A primitive with a 20-byte output (the size of SHA-1). -/
def shortHash : HashPrimitive where
  writeErr := fun _ _ => none
  sumOf := fun seen => (List.range 20).map (fun i => (seen.sum + i) % 256)

/-- A primitive whose `Write` fails once more than 8 bytes would have been written. -/
def failingHash : HashPrimitive where
  writeErr := fun seen p => if 8 < seen.length + p.length then some "short write" else none
  sumOf := fun seen => (List.range 32).map (fun i => (seen.sum + i) % 256)

/-- The digester of the spec's scenario A. -/
def dydx : offchainConfigDigester :=
  { EndpointName := str "dydx", EndpointTarget := str "bridge", PayloadType := str "ETHUSD" }

/-- An empty contract configuration. -/
def emptyConfig : ContractConfig :=
  { ConfigCount := 0, Signers := [], Transmitters := [], F := 0, OnchainConfig := [],
    OffchainConfigVersion := 0, OffchainConfig := [] }

/-- The message the three writes leave in the running hash. -/
def offchainConfigDigester.message (d : offchainConfigDigester) : List Nat :=
  bytesOf d.EndpointName ++ bytesOf d.EndpointTarget ++ bytesOf d.PayloadType

/-- A digester whose fields differ from those of `dydx` and concatenate to the same
bytes. -/
def dydxBridge : offchainConfigDigester :=
  { EndpointName := str "dydx", EndpointTarget := str "bridgeETH", PayloadType := str "USD" }

/-! ## nodes_commands.go -/

/-- `cli.Context` as the node commands read it: the values of the integer flags. -/
structure Context where
  /-- `c.Int(name)`. -/
  Int : GoString → Int

/-- A `cli.Flag`. -/
inductive Flag where
  /-- `cli.StringFlag{Name: ..., Usage: ...}`. -/
  | StringFlag (Name Usage : GoString)
  /-- `cli.IntFlag{Name: ..., Usage: ...}`. -/
  | IntFlag (Name Usage : GoString)
  /-- `cli.BoolFlag{Name: ..., Usage: ...}`. -/
  | BoolFlag (Name Usage : GoString)
deriving DecidableEq, Repr

/-- `flag.GetName()`. -/
def Flag.GetName : Flag → GoString
  | .StringFlag n _ => n
  | .IntFlag n _ => n
  | .BoolFlag n _ => n

/-- Whether the flag is a `cli.StringFlag`. -/
def Flag.isString : Flag → Bool
  | .StringFlag _ _ => true
  | _ => false

/-- A `cli.Command`, with the fields the node commands set; a field left out of a
composite literal has its zero value (`[]`, `none`). -/
inductive Command where
  | mk (Name Usage : GoString) (Flags : List Flag) (Subcommands : List Command)
      (Action : Option (Context → Option GoString))

/-- The field `Name`. -/
def Command.Name : Command → GoString
  | .mk n _ _ _ _ => n

/-- The field `Usage`. -/
def Command.Usage : Command → GoString
  | .mk _ u _ _ _ => u

/-- The field `Flags`. -/
def Command.Flags : Command → List Flag
  | .mk _ _ f _ _ => f

/-- The field `Subcommands`. -/
def Command.Subcommands : Command → List Command
  | .mk _ _ _ s _ => s

/-- The field `Action`. -/
def Command.Action : Command → Option (Context → Option GoString)
  | .mk _ _ _ _ a => a

/-- `type NodeClient interface`: `IndexNodes(c *cli.Context) error`, the error being
`none` for nil. -/
structure NodeClient where
  IndexNodes : Context → Option GoString

/-- `func nodeCommand(typ string, client NodeClient, flags ...cli.Flag) cli.Command`,
over the library function `strings.ToLower`. `fmt.Sprintf` with one `%s` verb is
concatenation. -/
def nodeCommand (ToLower : GoString → GoString) (typ : GoString) (client : NodeClient)
    (_flags : List Flag) : Command :=
  let lower := ToLower typ
  .mk lower (str "Commands for handling " ++ typ ++ str " node configuration") []
    [.mk (str "list") (str "List all existing " ++ typ ++ str " nodes") [] []
      (some client.IndexNodes)]
    none

/-- The `*Client` embedded in `nodeClient`, as `IndexNodes` uses it: the method
`getPage(requestURI, page, model)`, whose declaration is outside these sources. -/
structure Client where
  getPage : GoString → Int → Option GoString

/-- `type nodeClient[N chains.Node, P TableRenderer, P2 ~[]P] struct`. -/
structure nodeClient (N : Type) where
  toClient : Client
  path : GoString
  createNode : Context → Except GoString N

/-- `func (cli *nodeClient[N, P, P2]) IndexNodes(c *cli.Context) (err error)`. -/
def nodeClient.IndexNodes {N : Type} (cli : nodeClient N) (c : Context) : Option GoString :=
  cli.toClient.getPage cli.path (c.Int (str "page"))

/-- `func newNodeClient(c *Client, name string, createNode ...) NodeClient`. -/
def newNodeClient {N : Type} (c : Client) (name : GoString)
    (createNode : Context → Except GoString N) : NodeClient :=
  let cli : nodeClient N :=
    { toClient := c, path := str "/v2/nodes/" ++ name, createNode := createNode }
  { IndexNodes := cli.IndexNodes }

/-- `strings.ToLower` on ASCII input. -/
def asciiToLower (s : GoString) : GoString :=
  s.map (fun b => if 65 ≤ b ∧ b ≤ 90 then b + 32 else b)

/-- A client whose listing always succeeds. -/
def okClient : NodeClient :=
  { IndexNodes := fun _ => none }

/-! ## Paginated listing

The listing behind `getPage` and behind the controller under test is outside these
sources; it is modelled from the spec (§4.3, §6, §7, §8). -/

/-- Modelled from the spec: the errors of §7 a read of the registry can raise:
`InvalidPageError` (malformed pagination parameters) and `NotFoundError` (reference to
an unknown chain or node). -/
inductive ListError where
  | InvalidPageError
  | NotFoundError
deriving DecidableEq, Repr

/-- Modelled from the spec: the status the request layer answers with, as the
controller test expects it: `http.StatusUnprocessableEntity` for a malformed size,
`http.StatusBadRequest` for an unknown chain. -/
def ListError.status : ListError → Nat
  | .InvalidPageError => 422
  | .NotFoundError => 400

/-- Modelled from the spec: a pagination link reference (§6), naming the page and page
size of the request it stands for. -/
structure Link where
  page : Nat
  size : Nat
deriving DecidableEq, Repr

/-- Modelled from the spec: the result of `ListNodes` (§4.3): the items of one page,
the next and previous links (an empty link is `none`) and the total count the test reads
from the response. -/
structure Page (α : Type) where
  items : List α
  next : Option Link
  prev : Option Link
  count : Nat
deriving DecidableEq, Repr

/-- Modelled from the spec: the page numbered `page` (from 1) of `size` records, cut from
the records in their stable order, with a next link when records remain after it and a
previous link when it is not the first page (§4.3, scenario B of §8). -/
def listPage {α : Type} (records : List α) (page size : Nat) : Page α :=
  { items := (records.drop ((page - 1) * size)).take size
    next := if page * size < records.length then some ⟨page + 1, size⟩ else none
    prev := if 1 < page then some ⟨page - 1, size⟩ else none
    count := records.length }

/-- Modelled from the spec: walking `next` links (§8, pagination completeness): list the
page a link names, then follow its next link until it is empty; `none` when the number
of requests allowed by `fuel` is used up first. -/
def walkNext {α : Type} (records : List α) : Nat → Link → Option (List (Page α))
  | 0, _ => none
  | fuel + 1, l =>
    let pg := listPage records l.page l.size
    match pg.next with
    | none => some [pg]
    | some nxt => (walkNext records fuel nxt).map (fun rest => pg :: rest)

/-- Modelled from the spec: the value of a numeric parameter, `none` when the raw text
is empty or holds a byte that is not a decimal digit. -/
def parseDecimal (raw : GoString) : Option Nat :=
  if raw = [] then none
  else raw.foldl
    (fun acc b => acc.bind (fun n => if 48 ≤ b ∧ b ≤ 57 then some (n * 10 + (b - 48)) else none))
    (some 0)

/-- Modelled from the spec: a `page` or `pageSize` parameter is accepted when it is
numeric and not zero (§4.3). -/
def parseParam (raw : GoString) : Option Nat :=
  match parseDecimal raw with
  | some n => if 1 ≤ n then some n else none
  | none => none

/-- Modelled from the spec: the persistent store of records (§6), with the number of
data accesses made so far. -/
structure Store (α : Type) where
  records : List α
  accesses : Nat
deriving DecidableEq, Repr

/-- Modelled from the spec: the paginated scan of the store, one data access. -/
def Store.scan {α : Type} (st : Store α) : List α × Store α :=
  (st.records, { st with accesses := st.accesses + 1 })

/-- Modelled from the spec: `ListNodes(chain, page, pageSize)` on the records of one
chain (§4.3, §6): malformed parameters are rejected with `InvalidPageError` before any
data access; otherwise the store is scanned and the page returned. -/
def ListNodes {α : Type} (st : Store α) (page pageSize : GoString) :
    Except ListError (Page α) × Store α :=
  match parseParam page, parseParam pageSize with
  | some p, some s =>
    let (records, st) := st.scan
    (.ok (listPage records p s), st)
  | _, _ => (.error .InvalidPageError, st)

/-- The items an outcome of `ListNodes` returns. -/
def returnedItems {α : Type} (r : Except ListError (Page α)) : List α :=
  match r with
  | .ok pg => pg.items
  | .error _ => []

/-- The store of scenario B: "node-A" then "node-B". -/
def terraX : Store GoString :=
  { records := [str "node-A", str "node-B"], accesses := 0 }

/-! ## Lemmas on the digester -/

theorem copy_length (dst src : List Nat) : (copy dst src).1.length = dst.length := by
  simp only [copy, List.length_append, List.length_take, List.length_drop]
  omega

theorem copy_count (dst src : List Nat) : (copy dst src).2 = min dst.length src.length := rfl

theorem configDigest_eq_withPrefix (P : HashPrimitive) (d : offchainConfigDigester) :
    d.configDigest P = d.configDigestWithPrefix P d.ConfigDigestPrefix := rfl

theorem configDigestWithPrefix_of_writes (P : HashPrimitive)
    (hw : ∀ seen p, P.writeErr seen p = none) (pfx : Nat) (d : offchainConfigDigester) :
    d.configDigestWithPrefix P pfx =
      if (copy ConfigDigest.zero (P.sumOf d.message)).2 ≠ 32 then
        ((copy ConfigDigest.zero (P.sumOf d.message)).1,
          some (.incorrectHashSize (copy ConfigDigest.zero (P.sumOf d.message)).2 32))
      else
        (PutUint16 ((copy ConfigDigest.zero (P.sumOf d.message)).1.take 2) (uint16 pfx) ++
          (copy ConfigDigest.zero (P.sumOf d.message)).1.drop 2, none) := by
  have hlen : ∀ m, (copy ConfigDigest.zero m).1.length = 32 := fun m => by
    rw [copy_length]; rfl
  simp [offchainConfigDigester.configDigestWithPrefix, Hash.Write, Hash.New, Hash.Sum, hw,
    offchainConfigDigester.message, hlen]

theorem copy_zero_of_length (raw : List Nat) (h : raw.length = 32) :
    copy ConfigDigest.zero raw = (raw, 32) := by
  have hz : ConfigDigest.zero.length = 32 := List.length_replicate _ _
  unfold copy
  simp only [hz, h, Nat.min_self]
  rw [List.take_of_length_le (by omega), List.drop_of_length_le (by omega), List.append_nil]

theorem PutUint16_take_two (l : List Nat) (h : 2 ≤ l.length) (v : Nat) :
    PutUint16 (l.take 2) v = [byte (v >>> 8), byte v] := by
  match l, h with
  | a :: b :: t, _ => simp [PutUint16]

theorem configDigestWithPrefix_of_sha256Like (P : HashPrimitive) (hP : P.IsSha256Like)
    (pfx : Nat) (d : offchainConfigDigester) :
    d.configDigestWithPrefix P pfx =
      ([byte (uint16 pfx >>> 8), byte (uint16 pfx)] ++ (P.sumOf d.message).drop 2, none) := by
  rw [configDigestWithPrefix_of_writes P hP.1, copy_zero_of_length _ (hP.2 _)]
  have h2 : 2 ≤ (P.sumOf d.message).length := by rw [hP.2]; decide
  simp [PutUint16_take_two _ h2]

theorem prefix_bytes (d : offchainConfigDigester) :
    byte (uint16 d.ConfigDigestPrefix >>> 8) = 0 ∧ byte (uint16 d.ConfigDigestPrefix) = 4 := by
  have h : byte (uint16 ConfigDigestPrefixCustomEndpoint >>> 8) = 0 ∧
      byte (uint16 ConfigDigestPrefixCustomEndpoint) = 4 := by decide
  exact h

theorem ConfigDigest_of_sha256Like (P : HashPrimitive) (hP : P.IsSha256Like)
    (d : offchainConfigDigester) (cfg : ContractConfig) :
    d.ConfigDigest P cfg = ([0, 4] ++ (P.sumOf d.message).drop 2, none) := by
  show d.configDigest P = _
  rw [configDigest_eq_withPrefix, configDigestWithPrefix_of_sha256Like P hP,
    (prefix_bytes d).1, (prefix_bytes d).2]

theorem sampleHash_isSha256Like : sampleHash.IsSha256Like :=
  ⟨fun _ _ => rfl, fun _ => by simp [sampleHash]⟩

/-! ## Theorems on the digester -/

/-- C1: over a hash primitive shaped like SHA-256, `ConfigDigest` returns, for every
digester and every contract configuration, no error and a 32-byte digest whose bytes
[0:2] are the big-endian encoding of `ConfigDigestPrefix()`, which is the constant 4:
`digest[0] = 0x00` and `digest[1] = 0x04`. -/
theorem ConfigDigest_prefix_placement (P : HashPrimitive) (hP : P.IsSha256Like)
    (d : offchainConfigDigester) (cfg : ContractConfig) :
    (d.ConfigDigest P cfg).2 = none ∧
    (d.ConfigDigest P cfg).1.length = 32 ∧
    d.ConfigDigestPrefix = 4 ∧
    (d.ConfigDigest P cfg).1.take 2 =
      [d.ConfigDigestPrefix / 2 ^ 8 % 2 ^ 8, d.ConfigDigestPrefix % 2 ^ 8] ∧
    (d.ConfigDigest P cfg).1[0]? = some 0x00 ∧
    (d.ConfigDigest P cfg).1[1]? = some 0x04 := by
  have h := ConfigDigest_of_sha256Like P hP d cfg
  rw [h]
  refine ⟨rfl, ?_, rfl, ?_, ?_, ?_⟩
  · simp [hP.2]
  · show _ = [4 / 2 ^ 8 % 2 ^ 8, 4 % 2 ^ 8]
    simp
  · simp
  · simp

/-- Scenario A on a stand-in primitive: the digest of ("dydx", "bridge", "ETHUSD")
starts with 0x00 0x04. -/
theorem ConfigDigest_prefix_placement_witness :
    sampleHash.IsSha256Like ∧
    (dydx.ConfigDigest sampleHash emptyConfig).2 = none ∧
    (dydx.ConfigDigest sampleHash emptyConfig).1.length = 32 ∧
    dydx.ConfigDigestPrefix = 4 ∧
    (dydx.ConfigDigest sampleHash emptyConfig).1.take 2 =
      [dydx.ConfigDigestPrefix / 2 ^ 8 % 2 ^ 8, dydx.ConfigDigestPrefix % 2 ^ 8] ∧
    (dydx.ConfigDigest sampleHash emptyConfig).1[0]? = some 0x00 ∧
    (dydx.ConfigDigest sampleHash emptyConfig).1[1]? = some 0x04 :=
  ⟨sampleHash_isSha256Like,
    ConfigDigest_prefix_placement sampleHash sampleHash_isSha256Like dydx emptyConfig⟩

/-- C2: over a hash primitive shaped like SHA-256, bytes [2:32] of the digest returned by
`ConfigDigest` are bytes [2:32] of the hash of `EndpointName ++ EndpointTarget ++
PayloadType`, in that order; against the hash copied into the digest, writing the prefix
changes bytes 0 and 1 only. -/
theorem ConfigDigest_hash_tail (P : HashPrimitive) (hP : P.IsSha256Like)
    (d : offchainConfigDigester) (cfg : ContractConfig) :
    (d.ConfigDigest P cfg).1.drop 2 =
      (P.sumOf (d.EndpointName ++ d.EndpointTarget ++ d.PayloadType)).drop 2 ∧
    (d.ConfigDigest P cfg).1.length = 32 ∧
    (copy ConfigDigest.zero
      (P.sumOf (d.EndpointName ++ d.EndpointTarget ++ d.PayloadType))).1 =
      P.sumOf (d.EndpointName ++ d.EndpointTarget ++ d.PayloadType) ∧
    ∀ i, 2 ≤ i → (d.ConfigDigest P cfg).1[i]? =
      (P.sumOf (d.EndpointName ++ d.EndpointTarget ++ d.PayloadType))[i]? := by
  have h := ConfigDigest_of_sha256Like P hP d cfg
  have hm : d.message = d.EndpointName ++ d.EndpointTarget ++ d.PayloadType := rfl
  rw [h, ← hm]
  refine ⟨by simp, by simp [hP.2], by rw [copy_zero_of_length _ (hP.2 _)], ?_⟩
  intro i hi
  obtain ⟨k, rfl⟩ : ∃ k, i = 2 + k := ⟨i - 2, by omega⟩
  have : ([0, 4] : List Nat).length ≤ 2 + k := by simp
  rw [List.getElem?_append_right this]
  simp [List.getElem?_drop]

/-- The tail of the scenario-A digest is the tail of the stand-in hash of
"dydxbridgeETHUSD". -/
theorem ConfigDigest_hash_tail_witness :
    sampleHash.IsSha256Like ∧
    (dydx.ConfigDigest sampleHash emptyConfig).1.drop 2 =
      (sampleHash.sumOf (str "dydxbridgeETHUSD")).drop 2 :=
  ⟨sampleHash_isSha256Like,
    (ConfigDigest_hash_tail sampleHash sampleHash_isSha256Like dydx emptyConfig).1⟩

theorem configDigestWithPrefix_length (P : HashPrimitive) (pfx : Nat)
    (d : offchainConfigDigester) : (d.configDigestWithPrefix P pfx).1.length = 32 := by
  have hz : ConfigDigest.zero.length = 32 := List.length_replicate _ _
  have hc : ∀ m, (copy ConfigDigest.zero m).1.length = 32 := fun m => by
    rw [copy_length]; exact hz
  have hput : ∀ (l : List Nat) (v : Nat), (PutUint16 l v).length = l.length := fun l v => by
    simp [PutUint16]
  unfold offchainConfigDigester.configDigestWithPrefix
  simp only [Hash.Write, Hash.New, Hash.Sum]
  repeat' split
  all_goals first
    | exact hz
    | exact hc _
    | (simp only [List.length_append, hput, List.length_take, List.length_drop, hc]; rfl)

/-- C3: `ConfigDigest` depends on the digester alone: any two contract configurations
give the same 32 bytes and the same error, over every hash primitive. -/
theorem ConfigDigest_ignores_config (P : HashPrimitive) (d : offchainConfigDigester)
    (c1 c2 : ContractConfig) :
    d.ConfigDigest P c1 = d.ConfigDigest P c2 ∧
    (d.ConfigDigest P c1).1 = (d.ConfigDigest P c2).1 ∧
    (d.ConfigDigest P c1).2 = (d.ConfigDigest P c2).2 ∧
    (d.ConfigDigest P c1).1.length = 32 :=
  ⟨rfl, rfl, rfl, configDigestWithPrefix_length P d.ConfigDigestPrefix d⟩

/-- C4: when the hash writes succeed, `ConfigDigest` returns a nil error if the hash
output is 32 bytes long, and it returns an error only when `copy` moved fewer than 32
bytes, the error then being the incorrect-hash-size one. -/
theorem ConfigDigest_error_only_on_short_hash (P : HashPrimitive)
    (hw : ∀ seen p, P.writeErr seen p = none)
    (d : offchainConfigDigester) (cfg : ContractConfig) :
    ((P.sumOf (d.EndpointName ++ d.EndpointTarget ++ d.PayloadType)).length = 32 →
      (d.ConfigDigest P cfg).2 = none) ∧
    (∀ err, (d.ConfigDigest P cfg).2 = some err →
      (copy ConfigDigest.zero
        (P.sumOf (d.EndpointName ++ d.EndpointTarget ++ d.PayloadType))).2 < 32 ∧
      err = .incorrectHashSize (copy ConfigDigest.zero
        (P.sumOf (d.EndpointName ++ d.EndpointTarget ++ d.PayloadType))).2 32) ∧
    ((d.ConfigDigest P cfg).2 ≠ none ↔
      (P.sumOf (d.EndpointName ++ d.EndpointTarget ++ d.PayloadType)).length < 32) := by
  have hm : d.EndpointName ++ d.EndpointTarget ++ d.PayloadType = d.message := rfl
  have hz : ConfigDigest.zero.length = 32 := List.length_replicate _ _
  have hcd : d.ConfigDigest P cfg = d.configDigestWithPrefix P d.ConfigDigestPrefix := rfl
  rw [hm, hcd, configDigestWithPrefix_of_writes P hw]
  have hn : (copy ConfigDigest.zero (P.sumOf d.message)).2 =
      min 32 (P.sumOf d.message).length := by rw [copy_count, hz]
  refine ⟨?_, ?_, ?_⟩
  · intro h
    rw [if_neg (by rw [hn, h]; decide)]
  · intro err herr
    by_cases hc : (copy ConfigDigest.zero (P.sumOf d.message)).2 ≠ 32
    · rw [if_pos hc] at herr
      refine ⟨by omega, ?_⟩
      simpa using herr.symm
    · rw [if_neg hc] at herr
      cases herr
  · by_cases hc : (copy ConfigDigest.zero (P.sumOf d.message)).2 ≠ 32
    · rw [if_pos hc]
      simp only [ne_eq, reduceCtorEq, not_false_eq_true, true_iff]
      omega
    · rw [if_neg hc]
      simp only [ne_eq, not_true_eq_false, false_iff]
      omega

/-- On the stand-in primitive the writes succeed and scenario A returns a nil error; on
the 20-byte primitive it returns an error. -/
theorem ConfigDigest_error_only_on_short_hash_witness :
    (∀ seen p, sampleHash.writeErr seen p = none) ∧
    (sampleHash.sumOf (dydx.EndpointName ++ dydx.EndpointTarget ++ dydx.PayloadType)).length
      = 32 ∧
    (dydx.ConfigDigest sampleHash emptyConfig).2 = none ∧
    (dydx.ConfigDigest shortHash emptyConfig).2 ≠ none :=
  ⟨fun _ _ => rfl, by decide,
    (ConfigDigest_error_only_on_short_hash sampleHash (fun _ _ => rfl) dydx emptyConfig).1
      (by decide),
    (ConfigDigest_error_only_on_short_hash shortHash (fun _ _ => rfl) dydx emptyConfig).2.2.2
      (by decide)⟩

/-- With a 20-byte hash output the digest keeps the 20 bytes copied, zero padded and
without prefix, next to the incorrect-hash-size error. -/
theorem ConfigDigest_shortHash :
    dydx.ConfigDigest shortHash emptyConfig =
      ((shortHash.sumOf (str "dydxbridgeETHUSD")) ++ List.replicate 12 0,
        some (.incorrectHashSize 20 32)) := by
  decide

/-- A failed write is handed back with the zero digest. -/
theorem ConfigDigest_failingHash :
    dydx.ConfigDigest failingHash emptyConfig =
      (ConfigDigest.zero, some (.write "short write")) := by
  decide

theorem bigEndian_bytes_injective (p1 p2 : Nat) (h1 : p1 < 2 ^ 16) (h2 : p2 < 2 ^ 16)
    (h : [byte (uint16 p1 >>> 8), byte (uint16 p1)] = [byte (uint16 p2 >>> 8), byte (uint16 p2)]) :
    p1 = p2 := by
  simp only [byte, uint16, Nat.shiftRight_eq_div_pow, List.cons.injEq, and_true] at h
  obtain ⟨ha, hb⟩ := h
  rw [Nat.mod_eq_of_lt h1, Nat.mod_eq_of_lt h2] at ha hb
  norm_num at h1 h2 ha hb
  omega

/-- C5: with the 16-bit prefix as a parameter of the digest computation (the code passes
`ConfigDigestPrefix()`), over a hash primitive shaped like SHA-256 two distinct prefixes
give, for the same identity, two 32-byte digests that differ within bytes [0:2]. -/
theorem configDigest_prefix_separation (P : HashPrimitive) (hP : P.IsSha256Like)
    (d : offchainConfigDigester) (p1 p2 : Nat) (h1 : p1 < 2 ^ 16) (h2 : p2 < 2 ^ 16)
    (hne : p1 ≠ p2) :
    d.configDigestWithPrefix P d.ConfigDigestPrefix = d.configDigest P ∧
    (d.configDigestWithPrefix P p1).1.length = 32 ∧
    (d.configDigestWithPrefix P p2).1.length = 32 ∧
    (d.configDigestWithPrefix P p1).1.take 2 ≠ (d.configDigestWithPrefix P p2).1.take 2 ∧
    (d.configDigestWithPrefix P p1).1 ≠ (d.configDigestWithPrefix P p2).1 := by
  have hsep : (d.configDigestWithPrefix P p1).1.take 2 ≠
      (d.configDigestWithPrefix P p2).1.take 2 := by
    rw [configDigestWithPrefix_of_sha256Like P hP, configDigestWithPrefix_of_sha256Like P hP]
    intro h
    exact hne (bigEndian_bytes_injective p1 p2 h1 h2 (by simpa using h))
  refine ⟨rfl, configDigestWithPrefix_length P p1 d, configDigestWithPrefix_length P p2 d,
    hsep, ?_⟩
  intro h
  exact hsep (by rw [h])

/-- Prefixes 4 and 5 separate the scenario-A digests on the stand-in primitive. -/
theorem configDigest_prefix_separation_witness :
    sampleHash.IsSha256Like ∧ (4 : Nat) < 2 ^ 16 ∧ (5 : Nat) < 2 ^ 16 ∧ (4 : Nat) ≠ 5 ∧
    (dydx.configDigestWithPrefix sampleHash 4).1 ≠ (dydx.configDigestWithPrefix sampleHash 5).1 :=
  ⟨sampleHash_isSha256Like, by decide, by decide, by decide,
    (configDigest_prefix_separation sampleHash sampleHash_isSha256Like dydx 4 5
      (by decide) (by decide) (by decide)).2.2.2.2⟩

/-- C6 at a failing input: the digesters ("dydx", "bridge", "ETHUSD") and
("dydx", "bridgeETH", "USD") differ in two fields, and whenever the hash writes succeed
`configDigest` returns the same digest and error for both. -/
theorem configDigest_collides_on_shifted_fields (P : HashPrimitive)
    (hw : ∀ seen p, P.writeErr seen p = none) :
    dydx ≠ dydxBridge ∧
    dydx.EndpointTarget ≠ dydxBridge.EndpointTarget ∧
    dydx.PayloadType ≠ dydxBridge.PayloadType ∧
    dydx.configDigest P = dydxBridge.configDigest P := by
  refine ⟨by decide, by decide, by decide, ?_⟩
  have hm : dydx.message = dydxBridge.message := by decide
  rw [configDigest_eq_withPrefix, configDigest_eq_withPrefix,
    configDigestWithPrefix_of_writes P hw, configDigestWithPrefix_of_writes P hw, hm]
  rfl

/-- The collision on the stand-in primitive. -/
theorem configDigest_collides_on_shifted_fields_witness :
    (∀ seen p, sampleHash.writeErr seen p = none) ∧
    dydx ≠ dydxBridge ∧ dydx.configDigest sampleHash = dydxBridge.configDigest sampleHash :=
  ⟨fun _ _ => rfl,
    (configDigest_collides_on_shifted_fields sampleHash (fun _ _ => rfl)).1,
    (configDigest_collides_on_shifted_fields sampleHash (fun _ _ => rfl)).2.2.2⟩

/-! ## Theorems on the node commands -/

/-- C8: `nodeCommand(typ, client, flags...)` returns a command named
`strings.ToLower(typ)` with exactly one subcommand, named "list", whose action is
`client.IndexNodes`; the result is the same for every `flags` argument. -/
theorem nodeCommand_list_only (ToLower : GoString → GoString) (typ : GoString)
    (client : NodeClient) (flags : List Flag) :
    (nodeCommand ToLower typ client flags).Name = ToLower typ ∧
    (∃ sub, (nodeCommand ToLower typ client flags).Subcommands = [sub] ∧
      sub.Name = str "list" ∧ sub.Action = some client.IndexNodes) ∧
    ∀ flags2, nodeCommand ToLower typ client flags = nodeCommand ToLower typ client flags2 :=
  ⟨rfl, ⟨_, rfl, rfl, rfl⟩, fun _ => rfl⟩

/-- C7 at a failing input: the command `nodeCommand` returns carries no flag, on itself
or on its subcommands, for every type name, client and `flags` argument, a string flag
named "name" passed in `flags` included. -/
theorem nodeCommand_has_no_flag (ToLower : GoString → GoString) (typ : GoString)
    (client : NodeClient) (flags : List Flag) :
    (nodeCommand ToLower typ client flags).Flags = [] ∧
    (∀ sub ∈ (nodeCommand ToLower typ client flags).Subcommands,
      sub.Flags = [] ∧ sub.Subcommands = []) ∧
    (nodeCommand asciiToLower (str "Solana") okClient
      [.StringFlag (str "name") (str "node name")]).Flags = [] := by
  refine ⟨rfl, ?_, rfl⟩
  intro sub hsub
  simp only [nodeCommand, Command.Subcommands, List.mem_singleton] at hsub
  subst hsub
  exact ⟨rfl, rfl⟩

/-! ## Lemmas on the paginated listing -/

theorem walkNext_spec {α : Type} (records : List α) (size : Nat) :
    ∀ (fuel page : Nat), 1 ≤ page → (page - 1) * size ≤ records.length →
      records.length < (page - 1 + fuel) * size →
      ∃ pages, walkNext records fuel ⟨page, size⟩ = some pages ∧
        (pages.map Page.items).flatten = records.drop ((page - 1) * size) ∧
        1 ≤ pages.length ∧
        (∀ i (h : i < pages.length), pages[i] = listPage records (page + i) size) ∧
        records.length ≤ (page + pages.length - 1) * size ∧
        (∀ i, i + 1 < pages.length → (page + i) * size < records.length) := by
  intro fuel
  induction fuel with
  | zero =>
    intro page _ hlo hhi
    simp only [Nat.add_zero] at hhi
    omega
  | succ fuel ih =>
    intro page hp hlo hhi
    have hmul : page * size = (page - 1) * size + size := by
      obtain ⟨q, rfl⟩ : ∃ q, page = q + 1 := ⟨page - 1, by omega⟩
      simp [Nat.succ_mul]
    by_cases hnext : page * size < records.length
    · have hhi2 : records.length < (page + 1 - 1 + fuel) * size := by
        have : page + 1 - 1 + fuel = page - 1 + (fuel + 1) := by omega
        rw [this]; exact hhi
      obtain ⟨rest, hwalk, hflat, hlen, hget, hlast, hmid⟩ :=
        ih (page + 1) (by omega) (by simpa using hnext.le) hhi2
      refine ⟨listPage records page size :: rest, ?_, ?_, ?_, ?_, ?_, ?_⟩
      · simp only [walkNext, listPage, if_pos hnext]
        rw [hwalk]; rfl
      · simp only [List.map_cons, List.flatten_cons, hflat]
        simp only [listPage, Nat.add_sub_cancel]
        rw [hmul, ← List.drop_drop, List.take_append_drop]
      · simp
      · intro i h
        cases i with
        | zero => rfl
        | succ j =>
          simp only [List.getElem_cons_succ]
          rw [hget j (by simpa using h)]
          congr 1
          omega
      · simp only [List.length_cons]
        have : page + (rest.length + 1) - 1 = page + 1 + rest.length - 1 := by omega
        rw [this]; exact hlast
      · intro i h
        cases i with
        | zero => simpa using hnext
        | succ j =>
          have := hmid j (by simpa using h)
          have e : page + (j + 1) = page + 1 + j := by omega
          rw [e]; exact this
    · refine ⟨[listPage records page size], ?_, ?_, ?_, ?_, ?_, ?_⟩
      · simp only [walkNext, listPage, if_neg hnext]
      · simp only [List.map_cons, List.map_nil, List.flatten_cons, List.flatten_nil,
          List.append_nil, listPage]
        apply List.take_of_length_le
        rw [List.length_drop]
        omega
      · simp
      · intro i h
        have : i = 0 := by simpa using h
        subst this
        rfl
      · simp only [List.length_singleton, Nat.add_sub_cancel]
        omega
      · intro i h
        simp at h

theorem parseDecimal_foldl_none (raw : GoString) :
    raw.foldl
      (fun acc b => acc.bind (fun n => if 48 ≤ b ∧ b ≤ 57 then some (n * 10 + (b - 48)) else none))
      (none : Option Nat) = none := by
  induction raw with
  | nil => rfl
  | cons b t ih => simpa using ih

theorem parseDecimal_foldl_eq_none_iff (raw : GoString) : ∀ n : Nat,
    raw.foldl
      (fun acc b => acc.bind (fun n => if 48 ≤ b ∧ b ≤ 57 then some (n * 10 + (b - 48)) else none))
      (some n) = none ↔ ∃ b ∈ raw, ¬ (48 ≤ b ∧ b ≤ 57) := by
  induction raw with
  | nil => intro n; simp
  | cons b t ih =>
    intro n
    by_cases hb : 48 ≤ b ∧ b ≤ 57
    · rw [List.foldl_cons, Option.some_bind, if_pos hb, ih]
      simp [hb]
    · rw [List.foldl_cons, Option.some_bind, if_neg hb, parseDecimal_foldl_none]
      exact iff_of_true rfl ⟨b, List.mem_cons_self _ _, hb⟩

/-- A parameter has no numeric value exactly when it is empty or holds a byte that is
not an ASCII digit. -/
theorem parseDecimal_eq_none_iff (raw : GoString) :
    parseDecimal raw = none ↔ raw = [] ∨ ∃ b ∈ raw, ¬ (48 ≤ b ∧ b ≤ 57) := by
  unfold parseDecimal
  by_cases h : raw = []
  · simp [h]
  · rw [if_neg h, parseDecimal_foldl_eq_none_iff]
    simp [h]

/-! ## Theorems on the paginated listing -/

/-- C9: for every collection of records and every page size of at least 1, listing page
1 and following the returned next links ends after at most `length + 1` requests, and
the pages visited hold every record exactly once in the stored order; the previous link
is empty on the first page only, the next link is empty on the last page only, and
every page reports the total count. -/
theorem pagination_complete {α : Type} (records : List α) (size : Nat) (hs : 1 ≤ size) :
    ∃ pages, walkNext records (records.length + 1) ⟨1, size⟩ = some pages ∧
      (pages.map Page.items).flatten = records ∧
      pages[0]? = some (listPage records 1 size) ∧
      ∀ i (h : i < pages.length),
        (pages[i].prev = none ↔ i = 0) ∧
        (pages[i].next = none ↔ i + 1 = pages.length) ∧
        pages[i].count = records.length := by
  have hhi : records.length < (1 - 1 + (records.length + 1)) * size := by
    simp only [Nat.sub_self, Nat.zero_add]
    calc records.length < records.length + 1 := Nat.lt_succ_self _
      _ = (records.length + 1) * 1 := (Nat.mul_one _).symm
      _ ≤ (records.length + 1) * size := Nat.mul_le_mul_left _ hs
  obtain ⟨pages, hwalk, hflat, hlen, hget, hlast, hmid⟩ :=
    walkNext_spec records size (records.length + 1) 1 (le_refl 1) (by simp) hhi
  refine ⟨pages, hwalk, by simpa using hflat, ?_, ?_⟩
  · rw [List.getElem?_eq_getElem (by omega), hget 0 (by omega)]
  · intro i h
    rw [hget i h]
    refine ⟨?_, ?_, rfl⟩
    · simp only [listPage]
      constructor
      · intro hp
        by_contra hi
        rw [if_pos (by omega)] at hp
        cases hp
      · intro hi
        rw [if_neg (by omega)]
    · simp only [listPage]
      constructor
      · intro hn
        by_contra hi
        have := hmid i (by omega)
        rw [if_pos this] at hn
        cases hn
      · intro hi
        have e : 1 + pages.length - 1 = 1 + i := by omega
        rw [e] at hlast
        rw [if_neg (by omega)]

/-- Scenario B: two entries listed with size 1 give the first entry with a next link
and no previous link, then the second with a previous link and no next link, the count
being 2 on both pages. -/
theorem pagination_complete_witness :
    1 ≤ 1 ∧
    walkNext terraX.records (terraX.records.length + 1) ⟨1, 1⟩ =
      some [⟨[str "node-A"], some ⟨2, 1⟩, none, 2⟩, ⟨[str "node-B"], none, some ⟨1, 1⟩, 2⟩] ∧
    ∃ pages, walkNext terraX.records (terraX.records.length + 1) ⟨1, 1⟩ = some pages ∧
      (pages.map Page.items).flatten = terraX.records :=
  ⟨le_refl 1, by decide,
    (pagination_complete terraX.records 1 (le_refl 1)).imp fun _ h => ⟨h.1, h.2.1⟩⟩

/-- C10: a listing request whose page or page-size parameter is not numeric or is zero
fails with `InvalidPageError`, answered with status 422, with no data access made and no
item returned. -/
theorem ListNodes_rejects_malformed {α : Type} (st : Store α) (page pageSize : GoString)
    (h : (parseDecimal page = none ∨ parseDecimal page = some 0) ∨
      (parseDecimal pageSize = none ∨ parseDecimal pageSize = some 0)) :
    (ListNodes st page pageSize).1 = .error .InvalidPageError ∧
    ListError.InvalidPageError.status = 422 ∧
    (ListNodes st page pageSize).2 = st ∧
    (ListNodes st page pageSize).2.accesses = st.accesses ∧
    returnedItems (ListNodes st page pageSize).1 = [] := by
  have hbad : parseParam page = none ∨ parseParam pageSize = none := by
    rcases h with (h | h) | (h | h)
    · left; simp [parseParam, h]
    · left; simp [parseParam, h]
    · right; simp [parseParam, h]
    · right; simp [parseParam, h]
  have hres : ListNodes st page pageSize = (.error .InvalidPageError, st) := by
    unfold ListNodes
    rcases hbad with hb | hb
    · rw [hb]
    · rw [hb]
      cases parseParam page <;> rfl
  rw [hres]
  exact ⟨rfl, rfl, rfl, rfl, rfl⟩

/-- Scenario C: page 1 with size "asd" is rejected without touching the store. -/
theorem ListNodes_rejects_malformed_witness :
    parseDecimal (str "asd") = none ∧
    (ListNodes terraX (str "1") (str "asd")).1 = .error .InvalidPageError ∧
    (ListNodes terraX (str "1") (str "asd")).2.accesses = 0 :=
  ⟨by decide,
    (ListNodes_rejects_malformed terraX (str "1") (str "asd") (Or.inr (Or.inl (by decide)))).1,
    (ListNodes_rejects_malformed terraX (str "1") (str "asd") (Or.inr (Or.inl (by decide)))).2.2.2.1⟩

end Chainlink
